import Mathlib

/-!
Shallow embedding of the recommendation / ranking engine of the
book-review-system backend (`app/core/recommendations/`):

* `popular.py`  — `PopularRecommendationEngine.get_popular_books`,
  `get_trending_books`
* `genre.py`    — `GenreRecommendationEngine.get_genre_books`,
  `get_similar_genre_books`, `get_genre_diversity_recommendations`
* `personal.py` — `PersonalRecommendationEngine.get_personal_recommendations`,
  `_analyze_user_preferences`, `_get_user_excluded_books`,
  `_get_genre_based_recommendations`, `_get_collaborative_recommendations`,
  `get_user_similarity_score`

The relational store is modelled by explicit lists of rows; SQL queries
become list filters, aggregations and sorts.  UUID identities are
abstracted to `Nat`; a malformed UUID string is modelled as `none`.
Timestamps are integers counting days.  `DECIMAL` ratings are modelled
as `ℚ`.  A database session whose queries raise is modelled by the
`fail` flag of the store; fallible Python code returns `Except Unit`.
-/

namespace BRS

/-- A row of the `books` table, with its genre association list
(`book_genres`) inlined. -/
structure Book where
  id : Nat
  average_rating : ℚ
  total_reviews : Nat
  created_at : Int
  genres : List Nat
deriving DecidableEq, Repr

/-- A row of the `reviews` table. -/
structure Review where
  user_id : Nat
  book_id : Nat
  rating : Int
  created_at : Int
deriving DecidableEq, Repr

/-- A row of the `user_favorites` table. -/
structure Favorite where
  user_id : Nat
  book_id : Nat
deriving DecidableEq, Repr

/-- The aggregate store seen by the engines.  `fail = true` models a
database session that raises on every query. -/
structure Store where
  books : List Book
  reviews : List Review
  favorites : List Favorite
  fail : Bool
deriving Repr

/-- Sort a list in descending order of `key` (stable insertion sort;
models an SQL `ORDER BY key DESC` chain via a lexicographic key). -/
def sortByKeyDesc {α : Type} {κ : Type} [LinearOrder κ] (key : α → κ) (l : List α) : List α :=
  l.insertionSort (fun x y => key y ≤ key x)

/-! ### Popularity Ranker (`popular.py`) -/

/-- `popularity_score` of `get_popular_books`:
`(Book.average_rating * Book.total_reviews) / (Book.total_reviews + min_reviews)`. -/
def popularityScore (min_reviews : Nat) (b : Book) : ℚ :=
  (b.average_rating * b.total_reviews) / ((b.total_reviews : ℚ) + min_reviews)

/-- Sort key of `get_popular_books`: `ORDER BY popularity_score DESC,
average_rating DESC, total_reviews DESC`. -/
def popKey (min_reviews : Nat) (b : Book) : ℚ ×ₗ ℚ ×ₗ Nat :=
  toLex (popularityScore min_reviews b, toLex (b.average_rating, b.total_reviews))

/-- `PopularRecommendationEngine.get_popular_books`, pure query part.
`now` stands for `datetime.utcnow()`.  Note that the source guards the
date filter with `if days_back:`, so a `days_back` of `0` (falsy in
Python) applies no date filter; likewise `if genre_id:` with a `None`
genre applies no genre filter. -/
def get_popular_books (s : Store) (now : Int) (limit : Nat)
    (genre_id : Option Nat) (min_reviews : Nat) (days_back : Option Int) : List Book :=
  let base := s.books.filter (fun b => min_reviews ≤ b.total_reviews)
  let base := match genre_id with
    | some g => base.filter (fun b => g ∈ b.genres)
    | none => base
  let base := match days_back with
    | some d =>
        if d ≠ 0 then base.filter (fun b => now - d ≤ b.created_at) else base
    | none => base
  (sortByKeyDesc (popKey min_reviews) base).take limit

/-! ### Exclusion set (`personal.py._get_user_excluded_books`,
and the per-query subqueries of `genre.py`) -/

/-- Membership in the set of books the user has reviewed. -/
def hasReviewed (s : Store) (u : Nat) (bid : Nat) : Bool :=
  s.reviews.any (fun r => r.user_id = u && r.book_id = bid)

/-- Membership in the set of books the user has favorited. -/
def hasFavorited (s : Store) (u : Nat) (bid : Nat) : Bool :=
  s.favorites.any (fun f => f.user_id = u && f.book_id = bid)

/-- `_get_user_excluded_books`: the union of book identities the user
has reviewed or favorited, as a membership test (the Python code builds
a `set`). -/
def isExcluded (s : Store) (u : Nat) (bid : Nat) : Bool :=
  hasReviewed s u bid || hasFavorited s u bid

/-! ### Genre Ranker (`genre.py`) -/

/-- Sort key of `get_genre_books`: `ORDER BY average_rating DESC,
total_reviews DESC, created_at DESC`. -/
def genreKey (b : Book) : ℚ ×ₗ Nat ×ₗ Int :=
  toLex (b.average_rating, toLex (b.total_reviews, b.created_at))

/-- `GenreRecommendationEngine.get_genre_books`: filter to members of
the genre with `average_rating >= min_rating` and
`total_reviews >= min_reviews`, drop the excluded books when
`exclude_user_id` is given, order by rating, reviews, recency, take
`limit`. -/
def get_genre_books (s : Store) (genre_id : Nat) (limit : Nat)
    (exclude_user_id : Option Nat) (min_rating : ℚ) (min_reviews : Nat) : List Book :=
  let base := s.books.filter (fun b =>
    genre_id ∈ b.genres && min_rating ≤ b.average_rating && min_reviews ≤ b.total_reviews)
  let base := match exclude_user_id with
    | some u => base.filter (fun b => !hasReviewed s u b.id && !hasFavorited s u b.id)
    | none => base
  (sortByKeyDesc genreKey base).take limit

/-- Sort key of `get_similar_genre_books`: `ORDER BY average_rating
DESC, total_reviews DESC` (no recency tiebreak). -/
def similarKey (b : Book) : ℚ ×ₗ Nat :=
  toLex (b.average_rating, b.total_reviews)

/-- The genres of the book(s) with the given identity (the
`book_genres` subquery of `get_similar_genre_books`). -/
def genresOfBook (s : Store) (book_id : Nat) : List Nat :=
  (s.books.filter (fun b => b.id = book_id)).flatMap Book.genres

/-- `GenreRecommendationEngine.get_similar_genre_books`: books sharing
at least one genre with `book_id`, the source book itself excluded,
with the same user-exclusion rule, ordered by rating then reviews. -/
def get_similar_genre_books (s : Store) (book_id : Nat) (limit : Nat)
    (exclude_user_id : Option Nat) : List Book :=
  let src := genresOfBook s book_id
  let base := s.books.filter (fun b =>
    b.id ≠ book_id && b.genres.any (fun g => g ∈ src))
  let base := match exclude_user_id with
    | some u => base.filter (fun b => !hasReviewed s u b.id && !hasFavorited s u b.id)
    | none => base
  (sortByKeyDesc similarKey base).take limit

/-- Deduplicate a book list by identity, keeping first occurrences (the
`seen` set loop of `get_genre_diversity_recommendations`). -/
def dedupById (seen : List Nat) : List Book → List Book
  | [] => []
  | b :: rest =>
      if b.id ∈ seen then dedupById seen rest
      else b :: dedupById (b.id :: seen) rest

/-- The enumerated loop body of `get_genre_diversity_recommendations`:
genre `i` is queried with `books_per_genre`, plus one when
`i < remaining_books`. -/
def diversityRounds (s : Store) (exclude_user_id : Option Nat)
    (books_per_genre remaining_books : Nat) : Nat → List Nat → List Book
  | _, [] => []
  | i, g :: gs =>
      let genre_limit := books_per_genre + (if i < remaining_books then 1 else 0)
      get_genre_books s g genre_limit exclude_user_id 0 1 ++
        diversityRounds s exclude_user_id books_per_genre remaining_books (i + 1) gs

/-- `GenreRecommendationEngine.get_genre_diversity_recommendations`:
allocate `max 1 (limit / n)` books per genre (note the `max(1, ...)` in
the source), give the first `limit % n` genres one extra slot, query
each genre with defaults `min_rating = 0`, `min_reviews = 1`,
concatenate, deduplicate by identity keeping first occurrences, take
`limit`. -/
def get_genre_diversity_recommendations (s : Store) (preferred_genres : List Nat)
    (limit : Nat) (exclude_user_id : Option Nat) : List Book :=
  match preferred_genres with
  | [] => []
  | _ =>
      let n := preferred_genres.length
      let books_per_genre := max 1 (limit / n)
      let remaining_books := limit % n
      (dedupById []
        (diversityRounds s exclude_user_id books_per_genre remaining_books 0
          preferred_genres)).take limit

/-- The allocation the specification describes: `floor(limit / n)`
books per genre — without the `max(1, ...)` the source applies — plus
one extra slot for the first `limit mod n` genres.  Kept separate so it
can be compared with the source behaviour. -/
def claimedDiversityAllocation (s : Store) (preferred_genres : List Nat)
    (limit : Nat) (exclude_user_id : Option Nat) : List Book :=
  match preferred_genres with
  | [] => []
  | _ =>
      let n := preferred_genres.length
      let books_per_genre := limit / n
      let remaining_books := limit % n
      (dedupById []
        (diversityRounds s exclude_user_id books_per_genre remaining_books 0
          preferred_genres)).take limit

/-! ### Personalization Engine (`personal.py`) -/

/-- Join rows of the `genre_preferences` query of
`_analyze_user_preferences`: one row per (genre of a book, review of
that book by the user with rating at least 4). -/
def prefRows (s : Store) (u : Nat) : List (Nat × Review) :=
  s.books.flatMap (fun b =>
    b.genres.flatMap (fun g =>
      (s.reviews.filter (fun r =>
        r.user_id = u && 4 ≤ r.rating && r.book_id = b.id)).map (fun r => (g, r))))

/-- `has_activity` of the derived user profile: the grouped
`genre_preferences` result is non-empty, i.e. the join yields a row. -/
def hasActivity (s : Store) (u : Nat) : Bool :=
  !(prefRows s u).isEmpty

/-- Group aggregate of `genre_preferences`: number of join rows for one
genre. -/
def genreRowCount (s : Store) (u : Nat) (g : Nat) : Nat :=
  ((prefRows s u).filter (fun p => p.1 = g)).length

/-- Group aggregate of `genre_preferences`: mean rating of the join
rows for one genre. -/
def genreAvgRating (s : Store) (u : Nat) (g : Nat) : ℚ :=
  (((prefRows s u).filter (fun p => p.1 = g)).map (fun p => (p.2.rating : ℚ))).sum /
    (genreRowCount s u g : ℚ)

/-- `favorite_genres` of the derived profile: the grouped genres
ordered by mean rating descending then row count descending, capped at
the top 5. -/
def favoriteGenres (s : Store) (u : Nat) : List Nat :=
  (sortByKeyDesc (fun g => toLex (genreAvgRating s u g, genreRowCount s u g))
    (((prefRows s u).map Prod.fst).dedup)).take 5

/-- Result dictionary of `get_personal_recommendations`.  The Python
explanation strings are abstracted to a three-valued tag. -/
inductive ExplanationTag where
  | fallbackPopular
  | newUserPopular
  | basedOnPreferences
deriving DecidableEq, Repr

/-- The dictionary returned by `get_personal_recommendations`. -/
structure RecResult where
  books : List Book
  recommendation_type : String
  explanationTag : ExplanationTag
deriving DecidableEq, Repr

/-- A store access: raises (`Except.error`) exactly when the session is
in the failing state. -/
def query (s : Store) {α : Type} (v : α) : Except Unit α :=
  if s.fail then .error () else .ok v

/-- `uuid.UUID(user_id)`: raises on a malformed identity string
(modelled as `none`). -/
def parseUserId (user_id : Option Nat) : Except Unit Nat :=
  match user_id with
  | some u => .ok u
  | none => .error ()

/-- `PersonalRecommendationEngine.get_personal_recommendations`.

Mirrors the source control flow exactly: the first `try` covers UUID
parsing and preference analysis and falls back to popular books on
failure; an inactive user gets popular books outside any `try`; the
active-user branch filters popular books against the exclusion set,
pads with a prefix of the same unfiltered popular list when short, and
falls back to popular books if its queries fail.  The popular-book
queries of the fallback branches are themselves outside any handler, so
their failures propagate. -/
def get_personal_recommendations (s : Store) (now : Int) (user_id : Option Nat)
    (limit : Nat) : Except Unit RecResult :=
  match (do
      let u ← parseUserId user_id
      let act ← query s (hasActivity s u)
      pure (u, act) : Except Unit (Nat × Bool)) with
  | .error _ => do
      let books ← query s (get_popular_books s now limit none 5 none)
      pure ⟨books, "popular", .fallbackPopular⟩
  | .ok (u, act) =>
      if !act then do
        let books ← query s (get_popular_books s now limit none 5 none)
        pure ⟨books, "popular", .newUserPopular⟩
      else
        match (do
            let excluded ← query s (isExcluded s u)
            let popular ← query s (get_popular_books s now limit none 5 none)
            let filtered := (popular.filter (fun b => !excluded b.id)).take limit
            let recs := if filtered.length < limit then
                filtered ++ popular.take (limit - filtered.length)
              else filtered
            pure (recs.take limit) : Except Unit (List Book)) with
        | .ok books => .ok ⟨books, "personal", .basedOnPreferences⟩
        | .error _ => do
            let books ← query s (get_popular_books s now limit none 5 none)
            pure ⟨books, "popular", .fallbackPopular⟩

/-- Source helper `_get_genre_based_recommendations` (unused by
`get_personal_recommendations`): genre-diversity books over the user
favourite genres with no query-side exclusion, filtered manually
against the exclusion set, capped at `limit`. -/
def get_genre_based_recommendations (s : Store) (u : Nat) (limit : Nat) : List Book :=
  if (favoriteGenres s u).isEmpty then []
  else
    ((get_genre_diversity_recommendations s (favoriteGenres s u) limit none).filter
      (fun b => !isExcluded s u b.id)).take limit

/-- Book identities the user has rated (`user_book_ratings` keys of
`_get_collaborative_recommendations`). -/
def userRatedBookIds (s : Store) (u : Nat) : List Nat :=
  (s.reviews.filter (fun r => r.user_id = u)).map Review.book_id

/-- The review rows of other users on books the user has rated, i.e.
the grouped rows of the `similar_users` query. -/
def coRatingRows (s : Store) (u : Nat) : List Review :=
  s.reviews.filter (fun r => r.user_id ≠ u && r.book_id ∈ userRatedBookIds s u)

/-- Average rating of one user within the co-rating rows. -/
def coAvgRating (s : Store) (u : Nat) (v : Nat) : ℚ :=
  let rows := (coRatingRows s u).filter (fun r => r.user_id = v)
  ((rows.map (fun r => (r.rating : ℚ))).sum) / (rows.length : ℚ)

/-- `similar_users` of `_get_collaborative_recommendations`: users with
at least two reviews on commonly rated books, ordered by common count
descending then average rating descending, capped at 10. -/
def similarUsers (s : Store) (u : Nat) : List Nat :=
  let rows := coRatingRows s u
  let users := (rows.map Review.user_id).dedup
  let eligible := users.filter (fun v => 2 ≤ (rows.filter (fun r => r.user_id = v)).length)
  (sortByKeyDesc (fun v =>
    toLex (((rows.filter (fun r => r.user_id = v)).length : Nat), coAvgRating s u v))
    eligible).take 10

/-- Source helper `_get_collaborative_recommendations` (unused by
`get_personal_recommendations`): books that at least two similar users
rated 4 or higher, outside the exclusion set, ordered by the similar
users average rating, endorsement count, then the book rating.  The
source skips the exclusion filter when the exclusion list is empty,
which coincides with filtering by the always-false exclusion test. -/
def get_collaborative_recommendations (s : Store) (u : Nat) (limit : Nat) : List Book :=
  if (s.reviews.filter (fun r => r.user_id = u)).isEmpty then []
  else
    let sims := similarUsers s u
    if sims.isEmpty then []
    else
      let endorsing := fun (b : Book) => s.reviews.filter (fun r =>
        r.book_id = b.id && r.user_id ∈ sims && 4 ≤ r.rating)
      let cnt := fun (b : Book) => (endorsing b).length
      let avg := fun (b : Book) => (((endorsing b).map (fun r => (r.rating : ℚ))).sum) /
        ((cnt b : ℚ))
      let base := s.books.filter (fun b => !isExcluded s u b.id && 2 ≤ cnt b)
      (sortByKeyDesc (fun b => toLex (avg b, toLex (cnt b, b.average_rating))) base).take limit

/-- Modelled from the spec: the blended 60/40 branch of §4.4 (steps 4
and 5), which `get_personal_recommendations` does not implement.  The
split pulls 60 percent of `limit` (rounded down) of genre-based
candidates and the rest collaborative candidates, using the source
helper pipelines; when the combined candidates fall short of `limit`,
popularity output is requested with extra room (`2 * limit` here),
filtered against the exclusion set, and used as padding. -/
def spec_blended_books (s : Store) (now : Int) (u : Nat) (limit : Nat) : List Book :=
  let genre_limit := limit * 3 / 5
  let collab_limit := limit - genre_limit
  let genreCands := get_genre_based_recommendations s u genre_limit
  let collabCands := get_collaborative_recommendations s u collab_limit
  let cands := genreCands ++ collabCands
  if cands.length < limit then
    (cands ++ ((get_popular_books s now (2 * limit) none 5 none).filter
      (fun b => !isExcluded s u b.id))).take limit
  else
    cands.take limit

/-! ### Trending books (`popular.py.get_trending_books`)

The SQL `trending_score` is `recent_avg_rating * log(recent_reviews +
1)`; the logarithm is strictly monotone, so the `ORDER BY` comparison
of two scores is decided exactly by comparing natural-number powers:
for positive rationals `a, b` and counts `c, d`,
`a * log (c+1) < b * log (d+1)` holds iff
`(c+1) ^ (a.num * b.den) < (d+1) ^ (b.num * a.den)`.  The comparison
tests below are therefore computable; their agreement with the real
ordering is proved further down. -/

/-- The trending score of a grouped row: average recent rating times
the natural logarithm of the recent review count plus one.  (The log
base the SQL dialect uses only rescales all scores by a positive
constant, so the ordering is the same for any base.) -/
noncomputable def trendScore (avg : ℚ) (cnt : Nat) : ℝ :=
  (avg : ℝ) * Real.log ((cnt : ℝ) + 1)

/-- Sign of `trendScore avg cnt`, computed without real numbers. -/
def trendSgn (avg : ℚ) (cnt : Nat) : Int :=
  if cnt = 0 then 0 else if 0 < avg then 1 else if avg < 0 then -1 else 0

/-- Computable test for `trendScore a c < trendScore b d`. -/
def trendLtTest (a : ℚ) (c : Nat) (b : ℚ) (d : Nat) : Bool :=
  let s₁ := trendSgn a c
  let s₂ := trendSgn b d
  if s₁ < s₂ then true
  else if s₂ < s₁ then false
  else if s₁ = 1 then
    (c + 1) ^ (a.num.toNat * b.den) < (d + 1) ^ (b.num.toNat * a.den)
  else if s₁ = -1 then
    (d + 1) ^ ((-b).num.toNat * a.den) < (c + 1) ^ ((-a).num.toNat * b.den)
  else false

/-- Computable test for `trendScore a c = trendScore b d`. -/
def trendEqTest (a : ℚ) (c : Nat) (b : ℚ) (d : Nat) : Bool :=
  let s₁ := trendSgn a c
  let s₂ := trendSgn b d
  s₁ = s₂ &&
    (if s₁ = 1 then
      (c + 1) ^ (a.num.toNat * b.den) = (d + 1) ^ (b.num.toNat * a.den)
    else if s₁ = -1 then
      (d + 1) ^ ((-b).num.toNat * a.den) = (c + 1) ^ ((-a).num.toNat * b.den)
    else true)

/-- The `ORDER BY trending_score DESC, recent_avg_rating DESC`
relation on grouped rows `(recent average rating, recent review
count)`: `x` may come before `y`.  Defined through the computable
comparison tests; `trendBefore_iff` below identifies it with the
real-number ordering. -/
def trendBefore (x y : ℚ × Nat) : Prop :=
  trendLtTest y.1 y.2 x.1 x.2 = true ∨ (trendEqTest x.1 x.2 y.1 y.2 = true ∧ y.1 ≤ x.1)

instance trendBefore.instDecRel : DecidableRel trendBefore := fun _ _ =>
  inferInstanceAs (Decidable (_ ∨ _))

/-- Review rows created within the window (`Review.created_at >=
cutoff_date`). -/
def recentReviews (s : Store) (now days_back : Int) : List Review :=
  s.reviews.filter (fun r => now - days_back ≤ r.created_at)

/-- `recent_reviews` aggregate of the grouped subquery. -/
def recentCount (s : Store) (now days_back : Int) (bid : Nat) : Nat :=
  ((recentReviews s now days_back).filter (fun r => r.book_id = bid)).length

/-- `recent_avg_rating` aggregate of the grouped subquery. -/
def recentAvgRating (s : Store) (now days_back : Int) (bid : Nat) : ℚ :=
  (((recentReviews s now days_back).filter (fun r => r.book_id = bid)).map
      (fun r => (r.rating : ℚ))).sum / (recentCount s now days_back bid : ℚ)

/-- The grouped row joined to a book. -/
def trendEntry (s : Store) (now days_back : Int) (b : Book) : ℚ × Nat :=
  (recentAvgRating s now days_back b.id, recentCount s now days_back b.id)

/-- The `ORDER BY` relation of `get_trending_books` lifted to books. -/
def trendOrder (s : Store) (now days_back : Int) (x y : Book) : Prop :=
  trendBefore (trendEntry s now days_back x) (trendEntry s now days_back y)

instance trendOrder.instDecRel (s : Store) (now days_back : Int) :
    DecidableRel (trendOrder s now days_back) := fun _ _ =>
  inferInstanceAs (Decidable (trendBefore _ _))

/-- `PopularRecommendationEngine.get_trending_books`: the grouped
recent-review subquery keeps books having at least one review in the
window (a group exists) and at least `min_reviews_in_period` of them
(the `HAVING` clause); the inner join keeps exactly those books, ordered
by `trending_score` descending then recent average rating descending,
capped at `limit`. -/
def get_trending_books (s : Store) (now : Int) (limit : Nat) (days_back : Int)
    (min_reviews_in_period : Nat) : List Book :=
  let base := s.books.filter (fun b =>
    1 ≤ recentCount s now days_back b.id &&
      min_reviews_in_period ≤ recentCount s now days_back b.id)
  (base.insertionSort (trendOrder s now days_back)).take limit

/-! ### Similarity Estimator (`personal.py.get_user_similarity_score`) -/

/-- The rows of the per-user rating query, as `(book, rating)` pairs. -/
def userRatingPairs (s : Store) (u : Nat) : List (Nat × Int) :=
  (s.reviews.filter (fun r => r.user_id = u)).map (fun r => (r.book_id, r.rating))

/-- The Python dict comprehension over the rating rows: on duplicate
keys the last pair wins, hence the lookup in the reversed list. -/
def ratingDict (s : Store) (u : Nat) (book : Nat) : Option Int :=
  (userRatingPairs s u).reverse.lookup book

/-- The key set of a rating dict. -/
def ratingKeys (s : Store) (u : Nat) : Finset Nat :=
  ((userRatingPairs s u).map Prod.fst).toFinset

/-- `common_books`: intersection of the two key sets. -/
def commonBooks (s : Store) (u₁ u₂ : Nat) : Finset Nat :=
  ratingKeys s u₁ ∩ ratingKeys s u₂

/-- Rating of a common book (defined on all of `commonBooks`). -/
def ratingOf (s : Store) (u : Nat) (book : Nat) : ℚ :=
  ((ratingDict s u book).getD 0 : Int)

/-- `numerator` of the Pearson formulation:
`sum_products - sum1 * sum2 / n`. -/
def pearsonNum (s : Store) (u₁ u₂ : Nat) : ℚ :=
  let c := commonBooks s u₁ u₂
  let n : ℚ := c.card
  (∑ b ∈ c, ratingOf s u₁ b * ratingOf s u₂ b) -
    (∑ b ∈ c, ratingOf s u₁ b) * (∑ b ∈ c, ratingOf s u₂ b) / n

/-- The square of the Pearson `denominator`:
`(sum1_sq - sum1^2 / n) * (sum2_sq - sum2^2 / n)`; the source takes
this value to the power `0.5` and then compares the root with zero,
which is equivalent to comparing this product with zero since both
variance factors are non-negative. -/
def pearsonDenomSq (s : Store) (u₁ u₂ : Nat) : ℚ :=
  let c := commonBooks s u₁ u₂
  let n : ℚ := c.card
  ((∑ b ∈ c, ratingOf s u₁ b ^ 2) - (∑ b ∈ c, ratingOf s u₁ b) ^ 2 / n) *
    ((∑ b ∈ c, ratingOf s u₂ b ^ 2) - (∑ b ∈ c, ratingOf s u₂ b) ^ 2 / n)

/-- `PersonalRecommendationEngine.get_user_similarity_score`: zero on
fewer than two common books, zero on a zero denominator, otherwise the
Pearson correlation mapped from `[-1, 1]` into `[0, 1]`. -/
noncomputable def get_user_similarity_score (s : Store) (u₁ u₂ : Nat) : ℝ :=
  if (commonBooks s u₁ u₂).card < 2 then 0
  else if pearsonDenomSq s u₁ u₂ = 0 then 0
  else ((pearsonNum s u₁ u₂ : ℝ) / Real.sqrt ((pearsonDenomSq s u₁ u₂ : ℝ)) + 1) / 2

/-! ### Concrete stores used to separate claimed from actual behaviour -/

/-- A failing session over an empty store. -/
def failingStore : Store := ⟨[], [], [], true⟩

/-- Store for the exclusion counterexample: one popular-eligible book
that user 0 has reviewed. -/
def exclStore : Store :=
  ⟨[⟨1, 5, 5, 0, [10]⟩], [⟨0, 1, 5, 0⟩], [], false⟩

/-- Store for the diversity-allocation counterexample: genre 1 holds
two eligible books, genre 2 one, genre 3 none. -/
def divStore : Store :=
  ⟨[⟨1, 5, 1, 0, [1]⟩, ⟨2, 4, 1, 0, [1]⟩, ⟨3, 5, 1, 0, [2]⟩], [], [], false⟩

/-- Store for the date-filter counterexample: one popular-eligible book
created at time 3. -/
def dateStore : Store :=
  ⟨[⟨1, 4, 5, 3, []⟩], [], [], false⟩

/-- Store for the blended-branch counterexample: user 0 reviewed the
popular genre-10 book 1; genre 10 further holds three books too thinly
reviewed to be popular-eligible; book 5 is popular-eligible in another
genre. -/
def blendStore : Store :=
  ⟨[⟨1, 5, 5, 0, [10]⟩, ⟨2, 5, 1, 0, [10]⟩, ⟨3, 4, 1, 0, [10]⟩,
    ⟨4, 3, 1, 0, [10]⟩, ⟨5, 4, 5, 0, [99]⟩],
   [⟨0, 1, 5, 0⟩], [], false⟩

/-! ## Theorems -/

/-! ### Generic facts about the descending key sort -/

theorem sorted_sortByKeyDesc {α κ : Type} [LinearOrder κ] (key : α → κ) (l : List α) :
    (sortByKeyDesc key l).Sorted (fun x y => key y ≤ key x) := by
  haveI : IsTotal α (fun x y => key y ≤ key x) := ⟨fun a b => le_total (key b) (key a)⟩
  haveI : IsTrans α (fun x y => key y ≤ key x) :=
    ⟨fun _ _ _ h₁ h₂ => le_trans h₂ h₁⟩
  exact List.sorted_insertionSort _ l

theorem perm_sortByKeyDesc {α κ : Type} [LinearOrder κ] (key : α → κ) (l : List α) :
    (sortByKeyDesc key l).Perm l :=
  List.perm_insertionSort _ l

theorem mem_sortByKeyDesc {α κ : Type} [LinearOrder κ] {key : α → κ} {l : List α} {x : α} :
    x ∈ sortByKeyDesc key l ↔ x ∈ l :=
  List.mem_insertionSort _

/-- Sortedness survives the final `LIMIT` truncation. -/
theorem Sorted.take_of_sorted {α : Type} {r : α → α → Prop} {l : List α}
    (h : l.Sorted r) (n : Nat) : (l.take n).Sorted r :=
  List.Pairwise.sublist (List.take_sublist n l) h

/-! ### C5: shrinkage shape of the popularity score -/

/-- C5 (amended): for `min_reviews ≥ 1` the popularity score is
strictly increasing in `total_reviews` between books of equal
*positive* average rating, and never exceeds the average rating of a
book with non-negative average rating.  (At average rating zero the
score is constantly zero, so the increase is not strict there.) -/
theorem claim_C5 (min_reviews : Nat) (h_mr : 1 ≤ min_reviews) (b₁ b₂ : Book)
    (h_avg : b₁.average_rating = b₂.average_rating) (h_pos : 0 < b₁.average_rating)
    (h_lt : b₁.total_reviews < b₂.total_reviews) :
    popularityScore min_reviews b₁ < popularityScore min_reviews b₂ ∧
    ∀ b : Book, 0 ≤ b.average_rating → popularityScore min_reviews b ≤ b.average_rating := by
  constructor
  · unfold popularityScore
    rw [← h_avg]
    have hm : (1 : ℚ) ≤ (min_reviews : ℚ) := by exact_mod_cast h_mr
    have ht : (b₁.total_reviews : ℚ) < (b₂.total_reviews : ℚ) := by exact_mod_cast h_lt
    have ht₁ : (0 : ℚ) ≤ (b₁.total_reviews : ℚ) := by positivity
    have hd₁ : (0 : ℚ) < (b₁.total_reviews : ℚ) + (min_reviews : ℚ) := by linarith
    have hd₂ : (0 : ℚ) < (b₂.total_reviews : ℚ) + (min_reviews : ℚ) := by linarith
    rw [div_lt_div_iff₀ hd₁ hd₂]
    have hmpos : (0 : ℚ) < (min_reviews : ℚ) := by linarith
    have key : 0 < b₁.average_rating *
        ((min_reviews : ℚ) * ((b₂.total_reviews : ℚ) - (b₁.total_reviews : ℚ))) :=
      mul_pos h_pos (mul_pos hmpos (by linarith))
    nlinarith [key]
  · intro b hb
    unfold popularityScore
    have hm : (1 : ℚ) ≤ (min_reviews : ℚ) := by exact_mod_cast h_mr
    have ht : (0 : ℚ) ≤ (b.total_reviews : ℚ) := by positivity
    have hd : (0 : ℚ) < (b.total_reviews : ℚ) + (min_reviews : ℚ) := by linarith
    rw [div_le_iff₀ hd]
    nlinarith [hb, hm, ht]

theorem claim_C5_witness :
    popularityScore 1 ⟨0, 1, 1, 0, []⟩ < popularityScore 1 ⟨1, 1, 2, 0, []⟩ ∧
    ∀ b : Book, 0 ≤ b.average_rating → popularityScore 1 b ≤ b.average_rating :=
  claim_C5 1 (by norm_num) ⟨0, 1, 1, 0, []⟩ ⟨1, 1, 2, 0, []⟩ rfl (by norm_num) (by norm_num)

/-- C5 counterexample: with `min_reviews = 1` and two books of equal
average rating `0 ≥ 0`, the score is *not* strictly increasing in
`total_reviews` — both scores are zero. -/
theorem claim_C5_cex :
    (1 : Nat) ≤ 1 ∧ (0 : ℚ) ≤ (Book.mk 0 0 0 0 []).average_rating ∧
    (Book.mk 0 0 0 0 []).average_rating = (Book.mk 1 0 1 0 []).average_rating ∧
    (Book.mk 0 0 0 0 []).total_reviews < (Book.mk 1 0 1 0 []).total_reviews ∧
    ¬ (popularityScore 1 (Book.mk 0 0 0 0 []) < popularityScore 1 (Book.mk 1 0 1 0 [])) := by
  refine ⟨le_refl 1, le_refl 0, rfl, Nat.zero_lt_one, ?_⟩
  norm_num [popularityScore]

/-! ### C4: popularity eligibility, date window and ordering -/

/-- Unfolding of the lexicographic popularity sort key. -/
theorem popKey_le_iff (mr : Nat) (x y : Book) :
    popKey mr y ≤ popKey mr x ↔
      popularityScore mr y < popularityScore mr x ∨
        (popularityScore mr y = popularityScore mr x ∧
          (y.average_rating < x.average_rating ∨
            (y.average_rating = x.average_rating ∧ y.total_reviews ≤ x.total_reviews))) := by
  unfold popKey
  rw [Prod.Lex.le_iff, Prod.Lex.le_iff]

/-- Any returned popular book is a store book surviving every filter. -/
theorem mem_get_popular_books {s : Store} {now : Int} {limit : Nat}
    {genre_id : Option Nat} {min_reviews : Nat} {days_back : Option Int} {b : Book}
    (hb : b ∈ get_popular_books s now limit genre_id min_reviews days_back) :
    b ∈ s.books ∧ min_reviews ≤ b.total_reviews ∧
      (∀ g, genre_id = some g → g ∈ b.genres) ∧
      (∀ d, days_back = some d → d ≠ 0 → now - d ≤ b.created_at) := by
  have hb' := List.mem_of_mem_take hb
  rw [mem_sortByKeyDesc] at hb'
  rcases genre_id with _ | g <;> rcases days_back with _ | d
  · simp only [List.mem_filter] at hb'
    refine ⟨hb'.1, by simpa using hb'.2, by simp, by simp⟩
  · by_cases hd : d = 0
    · subst hd
      simp only [ne_eq, not_true_eq_false, if_false, List.mem_filter] at hb'
      refine ⟨hb'.1, by simpa using hb'.2, by simp, ?_⟩
      intro d' hd' hne
      cases hd'
      exact absurd rfl hne
    · simp only [ne_eq, hd, not_false_eq_true, if_true, List.mem_filter] at hb'
      obtain ⟨⟨hmem, hrev⟩, hdate⟩ := hb'
      refine ⟨hmem, by simpa using hrev, by simp, ?_⟩
      intro d' hd' _
      cases hd'
      simpa using hdate
  · simp only [List.mem_filter] at hb'
    obtain ⟨⟨hmem, hrev⟩, hgen⟩ := hb'
    refine ⟨hmem, by simpa using hrev, ?_, by simp⟩
    intro g' hg'
    cases hg'
    simpa using hgen
  · by_cases hd : d = 0
    · subst hd
      simp only [ne_eq, not_true_eq_false, if_false, List.mem_filter] at hb'
      obtain ⟨⟨hmem, hrev⟩, hgen⟩ := hb'
      refine ⟨hmem, by simpa using hrev, ?_, ?_⟩
      · intro g' hg'
        cases hg'
        simpa using hgen
      · intro d' hd' hne
        cases hd'
        exact absurd rfl hne
    · simp only [ne_eq, hd, not_false_eq_true, if_true, List.mem_filter] at hb'
      obtain ⟨⟨⟨hmem, hrev⟩, hgen⟩, hdate⟩ := hb'
      refine ⟨hmem, by simpa using hrev, ?_, ?_⟩
      · intro g' hg'
        cases hg'
        simpa using hgen
      · intro d' hd' _
        cases hd'
        simpa using hdate

/-- C4 (amended): every returned book meets the `min_reviews`
eligibility bound; the date window applies whenever `days_back` is
given *and non-zero* (`days_back = 0` is falsy in Python, so the source
skips the filter then); and the result is ordered by descending
popularity score with ties broken by descending average rating then
descending review count. -/
theorem claim_C4 (s : Store) (now : Int) (limit : Nat) (genre_id : Option Nat)
    (min_reviews : Nat) (days_back : Option Int) :
    (∀ b ∈ get_popular_books s now limit genre_id min_reviews days_back,
        min_reviews ≤ b.total_reviews) ∧
    (∀ b ∈ get_popular_books s now limit genre_id min_reviews days_back,
        ∀ d, days_back = some d → d ≠ 0 → now - d ≤ b.created_at) ∧
    (get_popular_books s now limit genre_id min_reviews days_back).Sorted (fun x y =>
      popularityScore min_reviews y < popularityScore min_reviews x ∨
        (popularityScore min_reviews y = popularityScore min_reviews x ∧
          (y.average_rating < x.average_rating ∨
            (y.average_rating = x.average_rating ∧ y.total_reviews ≤ x.total_reviews)))) := by
  refine ⟨fun b hb => (mem_get_popular_books hb).2.1,
    fun b hb => (mem_get_popular_books hb).2.2.2, ?_⟩
  unfold get_popular_books
  refine List.Pairwise.imp ?_ (Sorted.take_of_sorted (sorted_sortByKeyDesc _ _) _)
  intro x y h
  exact (popKey_le_iff min_reviews x y).mp h

theorem claim_C4_witness :
    (∀ b ∈ get_popular_books dateStore 10 10 none 5 (some 3),
        5 ≤ b.total_reviews) ∧
    (∀ b ∈ get_popular_books dateStore 10 10 none 5 (some 3),
        ∀ d, (some (3 : Int)) = some d → d ≠ 0 → 10 - d ≤ b.created_at) ∧
    (get_popular_books dateStore 10 10 none 5 (some 3)).Sorted (fun x y =>
      popularityScore 5 y < popularityScore 5 x ∨
        (popularityScore 5 y = popularityScore 5 x ∧
          (y.average_rating < x.average_rating ∨
            (y.average_rating = x.average_rating ∧ y.total_reviews ≤ x.total_reviews)))) :=
  claim_C4 dateStore 10 10 none 5 (some 3)

/-- C4 counterexample: with `days_back = 0` the claim demands
`created_at ≥ now - 0`, but the source treats `0` as "no filter" and
returns the book created at time 3 although `now = 10`. -/
theorem claim_C4_cex :
    get_popular_books dateStore 10 10 none 5 (some 0) = [⟨1, 4, 5, 3, []⟩] ∧
    ¬ ((10 : Int) - 0 ≤ (Book.mk 1 4 5 3 []).created_at) := by
  constructor
  · rfl
  · decide

/-! ### C10: genre eligibility and ordering -/

/-- Unfolding of the lexicographic genre sort key. -/
theorem genreKey_le_iff (x y : Book) :
    genreKey y ≤ genreKey x ↔
      y.average_rating < x.average_rating ∨
        (y.average_rating = x.average_rating ∧
          (y.total_reviews < x.total_reviews ∨
            (y.total_reviews = x.total_reviews ∧ y.created_at ≤ x.created_at))) := by
  unfold genreKey
  rw [Prod.Lex.le_iff, Prod.Lex.le_iff]

/-- Any returned genre book is a store book surviving every filter. -/
theorem mem_get_genre_books {s : Store} {genre_id limit : Nat}
    {exclude_user_id : Option Nat} {min_rating : ℚ} {min_reviews : Nat} {b : Book}
    (hb : b ∈ get_genre_books s genre_id limit exclude_user_id min_rating min_reviews) :
    b ∈ s.books ∧ genre_id ∈ b.genres ∧ min_rating ≤ b.average_rating ∧
      min_reviews ≤ b.total_reviews ∧
      (∀ u, exclude_user_id = some u →
        hasReviewed s u b.id = false ∧ hasFavorited s u b.id = false) := by
  have hb' := List.mem_of_mem_take hb
  rw [mem_sortByKeyDesc] at hb'
  rcases exclude_user_id with _ | u
  · rw [List.mem_filter] at hb'
    obtain ⟨hmem, hcond⟩ := hb'
    simp only [Bool.and_eq_true, decide_eq_true_eq] at hcond
    obtain ⟨⟨hg, hr⟩, hn⟩ := hcond
    exact ⟨hmem, hg, hr, hn, by simp⟩
  · rw [List.mem_filter] at hb'
    obtain ⟨hmem₁, hex⟩ := hb'
    rw [List.mem_filter] at hmem₁
    obtain ⟨hmem, hcond⟩ := hmem₁
    simp only [Bool.and_eq_true, decide_eq_true_eq] at hcond
    obtain ⟨⟨hg, hr⟩, hn⟩ := hcond
    simp only [Bool.and_eq_true, Bool.not_eq_true'] at hex
    refine ⟨hmem, hg, hr, hn, ?_⟩
    intro u' hu'
    cases hu'
    exact hex

/-- C10: every book returned by `get_genre_books` belongs to the genre
and meets both thresholds, and the result is ordered by descending
average rating, then descending review count, then descending creation
time. -/
theorem claim_C10 (s : Store) (genre_id limit : Nat) (exclude_user_id : Option Nat)
    (min_rating : ℚ) (min_reviews : Nat) :
    (∀ b ∈ get_genre_books s genre_id limit exclude_user_id min_rating min_reviews,
        genre_id ∈ b.genres ∧ min_rating ≤ b.average_rating ∧
          min_reviews ≤ b.total_reviews) ∧
    (get_genre_books s genre_id limit exclude_user_id min_rating min_reviews).Sorted
      (fun x y =>
        y.average_rating < x.average_rating ∨
          (y.average_rating = x.average_rating ∧
            (y.total_reviews < x.total_reviews ∨
              (y.total_reviews = x.total_reviews ∧ y.created_at ≤ x.created_at)))) := by
  constructor
  · intro b hb
    obtain ⟨_, hg, hr, hn, _⟩ := mem_get_genre_books hb
    exact ⟨hg, hr, hn⟩
  · unfold get_genre_books
    refine List.Pairwise.imp ?_ (Sorted.take_of_sorted (sorted_sortByKeyDesc _ _) _)
    intro x y h
    exact (genreKey_le_iff x y).mp h

theorem claim_C10_witness :
    (∀ b ∈ get_genre_books divStore 1 2 none 0 1,
        1 ∈ b.genres ∧ (0 : ℚ) ≤ b.average_rating ∧ 1 ≤ b.total_reviews) ∧
    (get_genre_books divStore 1 2 none 0 1).Sorted (fun x y =>
      y.average_rating < x.average_rating ∨
        (y.average_rating = x.average_rating ∧
          (y.total_reviews < x.total_reviews ∨
            (y.total_reviews = x.total_reviews ∧ y.created_at ≤ x.created_at)))) :=
  claim_C10 divStore 1 2 none 0 1

/-! ### C2: exclusion correctness -/

/-- C2 (amended): the query-side exclusion of the Genre Ranker is
correct — no book returned by `get_genre_books` or
`get_similar_genre_books` with `exclude_user_id = u` is in the set of
books `u` has reviewed or favorited.  (The personal-recommendation
branch is *not* exclusion-correct; see the counterexample.) -/
theorem claim_C2 (s : Store) (u : Nat) (genre_id book_id limit : Nat)
    (min_rating : ℚ) (min_reviews : Nat) :
    (∀ b ∈ get_genre_books s genre_id limit (some u) min_rating min_reviews,
        isExcluded s u b.id = false) ∧
    (∀ b ∈ get_similar_genre_books s book_id limit (some u),
        isExcluded s u b.id = false) := by
  constructor
  · intro b hb
    obtain ⟨_, _, _, _, hex⟩ := mem_get_genre_books hb
    obtain ⟨h₁, h₂⟩ := hex u rfl
    simp [isExcluded, h₁, h₂]
  · intro b hb
    have hb' := List.mem_of_mem_take hb
    rw [mem_sortByKeyDesc] at hb'
    simp only [List.mem_filter, Bool.and_eq_true, Bool.not_eq_true'] at hb'
    obtain ⟨_, h₁, h₂⟩ := hb'
    simp [isExcluded, h₁, h₂]

theorem claim_C2_witness :
    (∀ b ∈ get_genre_books exclStore 10 5 (some 0) 0 1,
        isExcluded exclStore 0 b.id = false) ∧
    (∀ b ∈ get_similar_genre_books exclStore 1 5 (some 0),
        isExcluded exclStore 0 b.id = false) :=
  claim_C2 exclStore 0 10 1 5 0 1

/-- C2 counterexample: for user 0, whose exclusion set is exactly book
1, the personal branch (`recommendation_type = "personal"`) returns
book 1 itself — the popularity backfill reintroduces excluded books. -/
theorem claim_C2_cex :
    get_personal_recommendations exclStore 0 (some 0) 1 =
      .ok ⟨[⟨1, 5, 5, 0, [10]⟩], "personal", .basedOnPreferences⟩ ∧
    isExcluded exclStore 0 1 = true := by
  constructor
  · rfl
  · rfl

/-! ### C3: diversity allocation -/

/-- The dedup loop never emits a seen identity and never emits an
identity twice. -/
theorem dedupById_nodup (l : List Book) (seen : List Nat) :
    ((dedupById seen l).map Book.id).Nodup ∧ ∀ b ∈ dedupById seen l, b.id ∉ seen := by
  induction l generalizing seen with
  | nil => simp [dedupById]
  | cons b rest ih =>
      by_cases hmem : b.id ∈ seen
      · simp only [dedupById, if_pos hmem]
        exact ⟨(ih seen).1, fun x hx => (ih seen).2 x hx⟩
      · simp only [dedupById, if_neg hmem, List.map_cons, List.nodup_cons]
        refine ⟨⟨?_, (ih (b.id :: seen)).1⟩, ?_⟩
        · intro hcontra
          simp only [List.mem_map] at hcontra
          obtain ⟨x, hx, hxid⟩ := hcontra
          exact (ih (b.id :: seen)).2 x hx (by simp [hxid])
        · intro x hx
          simp only [List.mem_cons] at hx
          rcases hx with rfl | hx
          · exact hmem
          · intro hxs
            exact (ih (b.id :: seen)).2 x hx (by simp [hxs])

/-- Unfolding equation for the non-empty case of the source diversity
allocation. -/
theorem diversity_cons (s : Store) (ex : Option Nat) (g : Nat) (gs' : List Nat)
    (limit : Nat) :
    get_genre_diversity_recommendations s (g :: gs') limit ex =
      (dedupById [] (diversityRounds s ex (max 1 (limit / (g :: gs').length))
        (limit % (g :: gs').length) 0 (g :: gs'))).take limit := rfl

/-- Unfolding equation for the non-empty case of the claimed diversity
allocation. -/
theorem claimedDiversity_cons (s : Store) (ex : Option Nat) (g : Nat) (gs' : List Nat)
    (limit : Nat) :
    claimedDiversityAllocation s (g :: gs') limit ex =
      (dedupById [] (diversityRounds s ex (limit / (g :: gs').length)
        (limit % (g :: gs').length) 0 (g :: gs'))).take limit := rfl

/-- C3 (amended): empty preferred genres yield the empty list, the
result has no duplicate identities and at most `limit` books, and the
allocation agrees with the claimed `floor(limit / n)`-plus-extras
scheme whenever `n ≤ limit`; in general the source allocates
`max 1 (limit / n)` per genre, not `floor(limit / n)`. -/
theorem claim_C3 (s : Store) (gs : List Nat) (limit : Nat) (ex : Option Nat) :
    get_genre_diversity_recommendations s [] limit ex = [] ∧
    ((get_genre_diversity_recommendations s gs limit ex).map Book.id).Nodup ∧
    (get_genre_diversity_recommendations s gs limit ex).length ≤ limit ∧
    (gs.length ≤ limit →
      get_genre_diversity_recommendations s gs limit ex =
        claimedDiversityAllocation s gs limit ex) := by
  refine ⟨rfl, ?_, ?_, ?_⟩
  · cases gs with
    | nil => simp [get_genre_diversity_recommendations]
    | cons g gs' =>
        rw [diversity_cons]
        exact (dedupById_nodup _ []).1.sublist ((List.take_sublist _ _).map Book.id)
  · cases gs with
    | nil => simp [get_genre_diversity_recommendations]
    | cons g gs' =>
        rw [diversity_cons]
        exact List.length_take_le _ _
  · intro hle
    cases gs with
    | nil => rfl
    | cons g gs' =>
        have hn : 0 < (g :: gs').length := by simp
        have h1 : 1 ≤ limit / (g :: gs').length :=
          (Nat.one_le_div_iff hn).mpr hle
        rw [diversity_cons, claimedDiversity_cons, Nat.max_eq_right h1]

theorem claim_C3_witness :
    get_genre_diversity_recommendations divStore [] 2 none = [] ∧
    ((get_genre_diversity_recommendations divStore [1, 2] 2 none).map Book.id).Nodup ∧
    (get_genre_diversity_recommendations divStore [1, 2] 2 none).length ≤ 2 ∧
    ([1, 2].length ≤ 2 →
      get_genre_diversity_recommendations divStore [1, 2] 2 none =
        claimedDiversityAllocation divStore [1, 2] 2 none) :=
  claim_C3 divStore [1, 2] 2 none

/-- C3 counterexample: three genres and `limit = 2`.  The claim
allocates sub-limits `1, 1, 0` (`floor(2/3) = 0` plus one extra for the
first two genres) and would return the top books of genres 1 and 2; the
source allocates `max 1 0 + extra`, i.e. `2, 2, 1`, and genre 1 fills
the whole result. -/
theorem claim_C3_cex :
    get_genre_diversity_recommendations divStore [1, 2, 3] 2 none =
      [⟨1, 5, 1, 0, [1]⟩, ⟨2, 4, 1, 0, [1]⟩] ∧
    claimedDiversityAllocation divStore [1, 2, 3] 2 none =
      [⟨1, 5, 1, 0, [1]⟩, ⟨3, 5, 1, 0, [2]⟩] := by
  constructor
  · rfl
  · rfl

/-! ### C1: failure semantics of the Personalization Engine -/

theorem query_ok {α : Type} (s : Store) (v : α) (h : s.fail = false) :
    query s v = .ok v := by
  simp [query, h]

/-- C1 (amended): as long as the store queries themselves succeed, the
engine always returns a result dictionary, and a malformed user
identity resolves to the popular fallback.  (When the store raises on
every query the fallback popular query raises *inside* the exception
handler and the exception propagates; see the counterexample.) -/
theorem claim_C1 (s : Store) (now : Int) (user_id : Option Nat) (limit : Nat)
    (h : s.fail = false) :
    ∃ r : RecResult, get_personal_recommendations s now user_id limit = .ok r ∧
      (user_id = none →
        r = ⟨get_popular_books s now limit none 5 none, "popular", .fallbackPopular⟩) := by
  cases user_id with
  | none =>
      refine ⟨⟨get_popular_books s now limit none 5 none, "popular", .fallbackPopular⟩,
        ?_, fun _ => rfl⟩
      unfold get_personal_recommendations
      simp [parseUserId, query_ok _ _ h, Bind.bind, Except.bind, Pure.pure, Except.pure]
  | some u =>
      unfold get_personal_recommendations
      simp only [parseUserId, query_ok _ _ h, Bind.bind, Except.bind, Pure.pure, Except.pure]
      by_cases hact : hasActivity s u = true
      · simp only [hact]
        exact ⟨_, rfl, nofun⟩
      · have hact' : hasActivity s u = false := by simpa using hact
        simp only [hact']
        exact ⟨_, rfl, nofun⟩

theorem claim_C1_witness :
    ∃ r : RecResult, get_personal_recommendations exclStore 0 none 20 = .ok r ∧
      ((none : Option Nat) = none →
        r = ⟨get_popular_books exclStore 0 20 none 5 none, "popular", .fallbackPopular⟩) :=
  claim_C1 exclStore 0 none 20 rfl

/-- C1 counterexample: with a store that raises on every query and a
malformed user identity, the engine itself raises — the fallback
popular query inside the exception handler is unprotected. -/
theorem claim_C1_cex :
    get_personal_recommendations failingStore 0 none 20 = .error () := rfl

/-! ### C8: the new-user fallback -/

/-- C8: a user with no rating-4-or-higher reviews has `has_activity =
false`, and the engine delegates to the Popularity Ranker, labelling
the result `popular`. -/
theorem claim_C8 (s : Store) (now : Int) (u : Nat) (limit : Nat)
    (hfail : s.fail = false)
    (hq : ∀ r ∈ s.reviews, r.user_id = u → r.rating < 4) :
    hasActivity s u = false ∧
    get_personal_recommendations s now (some u) limit =
      .ok ⟨get_popular_books s now limit none 5 none, "popular", .newUserPopular⟩ := by
  have hrows : prefRows s u = [] := by
    unfold prefRows
    simp only [List.flatMap_eq_nil_iff, List.map_eq_nil_iff, List.filter_eq_nil_iff]
    intro b _ g _ r hr
    simp only [Bool.and_eq_true, decide_eq_true_eq, not_and]
    intro h1 _
    exact absurd h1.2 (not_le.mpr (hq r hr h1.1))
  have hact : hasActivity s u = false := by
    simp [hasActivity, hrows]
  refine ⟨hact, ?_⟩
  unfold get_personal_recommendations
  simp only [parseUserId, query_ok _ _ hfail, Bind.bind, Except.bind, Pure.pure,
    Except.pure, hact, Bool.not_false, if_true]

theorem claim_C8_witness :
    hasActivity dateStore 0 = false ∧
    get_personal_recommendations dateStore 0 (some 0) 5 =
      .ok ⟨get_popular_books dateStore 0 5 none 5 none, "popular", .newUserPopular⟩ :=
  claim_C8 dateStore 0 0 5 rfl (by intro r hr; simp [dateStore] at hr)

/-! ### C9: the active-user branch -/

/-- C9 (amended): for an active user over a working store the engine
returns `recommendation_type = "personal"`, but the books are drawn
exclusively from the Popularity Ranker output for the same limit — the
60/40 genre/collaborative blend of the specification is not implemented
(the source comment reads "For now, just use popular books"). -/
theorem claim_C9 (s : Store) (now : Int) (u : Nat) (limit : Nat)
    (hfail : s.fail = false) (hact : hasActivity s u = true) :
    ∃ r : RecResult, get_personal_recommendations s now (some u) limit = .ok r ∧
      r.recommendation_type = "personal" ∧
      ∀ b ∈ r.books, b ∈ get_popular_books s now limit none 5 none := by
  unfold get_personal_recommendations
  simp only [parseUserId, query_ok _ _ hfail, Bind.bind, Except.bind, Pure.pure,
    Except.pure, hact]
  refine ⟨_, rfl, rfl, ?_⟩
  intro b hb
  simp only [Bool.not_true, if_false] at hb
  have hb' := List.mem_of_mem_take hb
  by_cases hlen : (((get_popular_books s now limit none 5 none).filter
      (fun b => !isExcluded s u b.id)).take limit).length < limit
  · rw [if_pos hlen] at hb'
    rcases List.mem_append.mp hb' with hleft | hright
    · exact List.mem_filter.mp (List.mem_of_mem_take hleft) |>.1
    · exact List.mem_of_mem_take hright
  · rw [if_neg hlen] at hb'
    exact List.mem_filter.mp (List.mem_of_mem_take hb') |>.1

theorem claim_C9_witness :
    ∃ r : RecResult, get_personal_recommendations blendStore 0 (some 0) 5 = .ok r ∧
      r.recommendation_type = "personal" ∧
      ∀ b ∈ r.books, b ∈ get_popular_books blendStore 0 5 none 5 none :=
  claim_C9 blendStore 0 0 5 rfl rfl

/-- C9 counterexample: over `blendStore` the active-user result is
`[book 5, book 1, book 5]` — taken from the popular list, with the
excluded book 1 reintroduced and book 5 duplicated by the backfill —
while the specified 60/40 blend would return the two thin genre-10
books followed by popular padding. -/
theorem claim_C9_cex :
    get_personal_recommendations blendStore 0 (some 0) 5 =
      .ok ⟨[⟨5, 4, 5, 0, [99]⟩, ⟨1, 5, 5, 0, [10]⟩, ⟨5, 4, 5, 0, [99]⟩], "personal",
        .basedOnPreferences⟩ ∧
    spec_blended_books blendStore 0 0 5 =
      [⟨2, 5, 1, 0, [10]⟩, ⟨3, 4, 1, 0, [10]⟩, ⟨5, 4, 5, 0, [99]⟩] ∧
    hasActivity blendStore 0 = true ∧
    [Book.mk 5 4 5 0 [99], Book.mk 1 5 5 0 [10], Book.mk 5 4 5 0 [99]] ≠
      [Book.mk 2 5 1 0 [10], Book.mk 3 4 1 0 [10], Book.mk 5 4 5 0 [99]] := by
  have h5 : get_popular_books blendStore 0 5 none 5 none =
      [⟨1, 5, 5, 0, [10]⟩, ⟨5, 4, 5, 0, [99]⟩] := by
    norm_num [get_popular_books, blendStore, sortByKeyDesc, List.insertionSort,
      List.orderedInsert, popKey, popularityScore, Prod.Lex.le_iff]
  have h10 : get_popular_books blendStore 0 (2 * 5) none 5 none =
      [⟨1, 5, 5, 0, [10]⟩, ⟨5, 4, 5, 0, [99]⟩] := by
    norm_num [get_popular_books, blendStore, sortByKeyDesc, List.insertionSort,
      List.orderedInsert, popKey, popularityScore, Prod.Lex.le_iff]
  refine ⟨?_, ?_, rfl, by decide⟩
  · unfold get_personal_recommendations
    simp only [parseUserId, query, Bind.bind, Except.bind, Pure.pure, Except.pure,
      show blendStore.fail = false from rfl, Bool.false_eq_true, if_false,
      show hasActivity blendStore 0 = true from rfl, h5]
    rfl
  · unfold spec_blended_books
    simp only [h10]
    rfl

/-! ### C6: similarity bounds -/

/-- Expanding a centered cross-product sum. -/
theorem centered_expand (c : Finset Nat) (hn : (c.card : ℚ) ≠ 0) (f g : Nat → ℚ) :
    ∑ b ∈ c, (f b - (∑ x ∈ c, f x) / c.card) * (g b - (∑ x ∈ c, g x) / c.card) =
      (∑ b ∈ c, f b * g b) - (∑ b ∈ c, f b) * (∑ b ∈ c, g b) / c.card := by
  have expand : ∀ b ∈ c, (f b - (∑ x ∈ c, f x) / c.card) * (g b - (∑ x ∈ c, g x) / c.card) =
      f b * g b - ((∑ x ∈ c, f x) / c.card) * g b - ((∑ x ∈ c, g x) / c.card) * f b +
        ((∑ x ∈ c, f x) / c.card) * ((∑ x ∈ c, g x) / c.card) := by
    intro b _
    ring
  rw [Finset.sum_congr rfl expand, Finset.sum_add_distrib, Finset.sum_sub_distrib,
    Finset.sum_sub_distrib, ← Finset.mul_sum, ← Finset.mul_sum, Finset.sum_const,
    nsmul_eq_mul]
  field_simp
  ring

/-- Expanding a centered square sum. -/
theorem centered_sq (c : Finset Nat) (hn : (c.card : ℚ) ≠ 0) (f : Nat → ℚ) :
    ∑ b ∈ c, (f b - (∑ x ∈ c, f x) / c.card) ^ 2 =
      (∑ b ∈ c, f b ^ 2) - (∑ b ∈ c, f b) ^ 2 / c.card := by
  have h := centered_expand c hn f f
  simp only [sq]
  calc ∑ b ∈ c, (f b - (∑ x ∈ c, f x) / c.card) * (f b - (∑ x ∈ c, f x) / c.card) =
      (∑ b ∈ c, f b * f b) - (∑ b ∈ c, f b) * (∑ b ∈ c, f b) / c.card := h
    _ = _ := by ring

/-- Cauchy-Schwarz for the Pearson formulation: the squared numerator
never exceeds the product of the two variance terms. -/
theorem pearson_num_sq_le (s : Store) (u₁ u₂ : Nat)
    (hn : (commonBooks s u₁ u₂).card ≠ 0) :
    pearsonNum s u₁ u₂ ^ 2 ≤ pearsonDenomSq s u₁ u₂ := by
  have hnQ : ((commonBooks s u₁ u₂).card : ℚ) ≠ 0 := by exact_mod_cast hn
  have h₁ := centered_expand (commonBooks s u₁ u₂) hnQ (ratingOf s u₁) (ratingOf s u₂)
  have h₂ := centered_sq (commonBooks s u₁ u₂) hnQ (ratingOf s u₁)
  have h₃ := centered_sq (commonBooks s u₁ u₂) hnQ (ratingOf s u₂)
  have cs := Finset.sum_mul_sq_le_sq_mul_sq (commonBooks s u₁ u₂)
    (fun b => ratingOf s u₁ b -
      (∑ x ∈ commonBooks s u₁ u₂, ratingOf s u₁ x) / (commonBooks s u₁ u₂).card)
    (fun b => ratingOf s u₂ b -
      (∑ x ∈ commonBooks s u₁ u₂, ratingOf s u₂ x) / (commonBooks s u₁ u₂).card)
  simp only [pearsonNum, pearsonDenomSq]
  rw [← h₁, ← h₂, ← h₃]
  exact cs

/-- Each variance term of the Pearson denominator is non-negative. -/
theorem pearson_variance_nonneg (s : Store) (u : Nat) (c : Finset Nat)
    (hn : (c.card : ℚ) ≠ 0) :
    0 ≤ (∑ b ∈ c, ratingOf s u b ^ 2) - (∑ b ∈ c, ratingOf s u b) ^ 2 / c.card := by
  rw [← centered_sq c hn (ratingOf s u)]
  exact Finset.sum_nonneg fun b _ => sq_nonneg _

/-- The Pearson denominator square is non-negative. -/
theorem pearson_denom_nonneg (s : Store) (u₁ u₂ : Nat)
    (hn : (commonBooks s u₁ u₂).card ≠ 0) :
    0 ≤ pearsonDenomSq s u₁ u₂ := by
  have hnQ : ((commonBooks s u₁ u₂).card : ℚ) ≠ 0 := by exact_mod_cast hn
  unfold pearsonDenomSq
  exact mul_nonneg (pearson_variance_nonneg s u₁ _ hnQ) (pearson_variance_nonneg s u₂ _ hnQ)

/-- C6: the similarity score lies in `[0, 1]`; it is exactly `0` on
fewer than two common books and on a vanishing Pearson denominator;
otherwise it is the Pearson correlation (in the
sum/sum-of-squares/sum-of-products formulation) mapped through
`(r + 1) / 2`. -/
theorem claim_C6 (s : Store) (u₁ u₂ : Nat) :
    (0 ≤ get_user_similarity_score s u₁ u₂ ∧ get_user_similarity_score s u₁ u₂ ≤ 1) ∧
    ((commonBooks s u₁ u₂).card < 2 → get_user_similarity_score s u₁ u₂ = 0) ∧
    (pearsonDenomSq s u₁ u₂ = 0 → get_user_similarity_score s u₁ u₂ = 0) ∧
    (2 ≤ (commonBooks s u₁ u₂).card → pearsonDenomSq s u₁ u₂ ≠ 0 →
      get_user_similarity_score s u₁ u₂ =
        ((pearsonNum s u₁ u₂ : ℝ) / Real.sqrt ((pearsonDenomSq s u₁ u₂ : ℝ)) + 1) / 2) := by
  unfold get_user_similarity_score
  by_cases hcard : (commonBooks s u₁ u₂).card < 2
  · rw [if_pos hcard]
    exact ⟨⟨le_refl 0, zero_le_one⟩, fun _ => rfl, fun _ => rfl,
      fun h2 _ => absurd hcard (by omega)⟩
  · have h2 : 2 ≤ (commonBooks s u₁ u₂).card := not_lt.mp hcard
    have hn : (commonBooks s u₁ u₂).card ≠ 0 := by omega
    rw [if_neg hcard]
    by_cases hden : pearsonDenomSq s u₁ u₂ = 0
    · rw [if_pos hden]
      exact ⟨⟨le_refl 0, zero_le_one⟩, fun h => absurd h hcard, fun _ => rfl,
        fun _ hcontra => absurd hden hcontra⟩
    · rw [if_neg hden]
      have hD0 : (0 : ℚ) ≤ pearsonDenomSq s u₁ u₂ := pearson_denom_nonneg s u₁ u₂ hn
      have hDpos : (0 : ℝ) < ((pearsonDenomSq s u₁ u₂ : ℚ) : ℝ) := by
        have : (0 : ℚ) < pearsonDenomSq s u₁ u₂ := lt_of_le_of_ne hD0 (Ne.symm hden)
        exact_mod_cast this
      have hcs : ((pearsonNum s u₁ u₂ : ℚ) : ℝ) ^ 2 ≤ ((pearsonDenomSq s u₁ u₂ : ℚ) : ℝ) := by
        exact_mod_cast pearson_num_sq_le s u₁ u₂ hn
      have hr2 : (((pearsonNum s u₁ u₂ : ℚ) : ℝ) /
          Real.sqrt ((pearsonDenomSq s u₁ u₂ : ℚ) : ℝ)) ^ 2 ≤ 1 := by
        rw [div_pow, Real.sq_sqrt hDpos.le]
        exact (div_le_one hDpos).mpr hcs
      have habs := (sq_le_one_iff_abs_le_one _).mp hr2
      obtain ⟨hlo, hhi⟩ := abs_le.mp habs
      refine ⟨⟨by linarith, by linarith⟩, fun h => absurd h hcard,
        fun h => absurd h hden, fun _ _ => rfl⟩

/-! ### C7: trending eligibility and ordering

The proofs below identify the computable comparison tests with the
real `trending_score` ordering. -/

theorem trendScore_pos {a : ℚ} {c : Nat} (ha : 0 < a) (hc : 1 ≤ c) :
    0 < trendScore a c := by
  refine mul_pos (by exact_mod_cast ha) (Real.log_pos ?_)
  have : (1 : ℝ) ≤ (c : ℝ) := by exact_mod_cast hc
  linarith

theorem trendScore_neg {a : ℚ} {c : Nat} (ha : a < 0) (hc : 1 ≤ c) :
    trendScore a c < 0 := by
  have hl : 0 < Real.log ((c : ℝ) + 1) := Real.log_pos (by
    have : (1 : ℝ) ≤ (c : ℝ) := by exact_mod_cast hc
    linarith)
  have haR : (a : ℝ) < 0 := by exact_mod_cast ha
  exact mul_neg_of_neg_of_pos haR hl

theorem trendScore_zero_left {c : Nat} : trendScore 0 c = 0 := by
  simp [trendScore]

theorem trendScore_cnt_zero {a : ℚ} : trendScore a 0 = 0 := by
  simp [trendScore]

/-- The score and its computable sign agree. -/
theorem trendSgn_spec (a : ℚ) (c : Nat) :
    (trendSgn a c = 1 ∧ 0 < trendScore a c) ∨
    (trendSgn a c = 0 ∧ trendScore a c = 0) ∨
    (trendSgn a c = -1 ∧ trendScore a c < 0) := by
  unfold trendSgn
  by_cases hc : c = 0
  · subst hc
    simp [trendScore_cnt_zero]
  · have hc1 : 1 ≤ c := Nat.one_le_iff_ne_zero.mpr hc
    by_cases hap : 0 < a
    · exact Or.inl ⟨by simp [hc, hap], trendScore_pos hap hc1⟩
    · by_cases han : a < 0
      · exact Or.inr (Or.inr ⟨by simp [hc, hap, han], trendScore_neg han hc1⟩)
      · have : a = 0 := le_antisymm (not_lt.mp hap) (not_lt.mp han)
        subst this
        exact Or.inr (Or.inl ⟨by simp [hc], trendScore_zero_left⟩)

/-- Core comparison lemma: for positive rational coefficients the
logarithm comparison reduces to a natural-number power comparison. -/
theorem qmul_log_lt_iff {a b : ℚ} (ha : 0 < a) (hb : 0 < b) (c d : Nat) :
    trendScore a c < trendScore b d ↔
      (c + 1) ^ (a.num.toNat * b.den) < (d + 1) ^ (b.num.toNat * a.den) := by
  have hda : (0 : ℝ) < (a.den : ℝ) := by exact_mod_cast a.pos
  have hdb : (0 : ℝ) < (b.den : ℝ) := by exact_mod_cast b.pos
  have hna : ((a.num.toNat : ℕ) : ℝ) = ((a.num : ℤ) : ℝ) := by
    exact_mod_cast Int.toNat_of_nonneg (le_of_lt (Rat.num_pos.mpr ha))
  have hnb : ((b.num.toNat : ℕ) : ℝ) = ((b.num : ℤ) : ℝ) := by
    exact_mod_cast Int.toNat_of_nonneg (le_of_lt (Rat.num_pos.mpr hb))
  have hca : (a : ℝ) = (a.num : ℝ) / (a.den : ℝ) := by
    rw [Rat.cast_def]
  have hcb : (b : ℝ) = (b.num : ℝ) / (b.den : ℝ) := by
    rw [Rat.cast_def]
  have e₁ : ((a.num.toNat * b.den : ℕ) : ℝ) = (a.num : ℝ) * (b.den : ℝ) := by
    push_cast
    rw [hna]
  have e₂ : ((b.num.toNat * a.den : ℕ) : ℝ) = (b.num : ℝ) * (a.den : ℝ) := by
    push_cast
    rw [hnb]
  have key : trendScore a c < trendScore b d ↔
      ((a.num.toNat * b.den : ℕ) : ℝ) * Real.log ((c : ℝ) + 1) <
        ((b.num.toNat * a.den : ℕ) : ℝ) * Real.log ((d : ℝ) + 1) := by
    unfold trendScore
    rw [hca, hcb, div_mul_eq_mul_div, div_mul_eq_mul_div, div_lt_div_iff₀ hda hdb, e₁, e₂]
    constructor
    · intro h
      nlinarith [h]
    · intro h
      nlinarith [h]
  rw [key, ← Real.log_pow, ← Real.log_pow]
  have hc1 : (0 : ℝ) < ((c : ℝ) + 1) ^ (a.num.toNat * b.den) := by positivity
  have hd1 : (0 : ℝ) < ((d : ℝ) + 1) ^ (b.num.toNat * a.den) := by positivity
  rw [Real.log_lt_log_iff hc1 hd1]
  constructor
  · intro h
    exact_mod_cast h
  · intro h
    exact_mod_cast h

/-- Power-equality version of the core comparison lemma. -/
theorem qmul_log_eq_iff {a b : ℚ} (ha : 0 < a) (hb : 0 < b) (c d : Nat) :
    trendScore a c = trendScore b d ↔
      (c + 1) ^ (a.num.toNat * b.den) = (d + 1) ^ (b.num.toNat * a.den) := by
  constructor
  · intro h
    have h₁ := (qmul_log_lt_iff ha hb c d).not.mp (by rw [h]; exact lt_irrefl _)
    have h₂ := (qmul_log_lt_iff hb ha d c).not.mp (by rw [h]; exact lt_irrefl _)
    omega
  · intro h
    have h₁ := (qmul_log_lt_iff ha hb c d).not.mpr (by omega)
    have h₂ := (qmul_log_lt_iff hb ha d c).not.mpr (by omega)
    have := not_lt.mp h₁
    have := not_lt.mp h₂
    linarith

theorem trendSgn_one {a : ℚ} {c : Nat} (h : trendSgn a c = 1) : 0 < a ∧ 1 ≤ c := by
  unfold trendSgn at h
  split_ifs at h with h₁ h₂ h₃
  · exact absurd h (by decide)
  · exact ⟨h₂, Nat.one_le_iff_ne_zero.mpr h₁⟩
  · exact absurd h (by decide)

theorem trendSgn_negOne {a : ℚ} {c : Nat} (h : trendSgn a c = -1) : a < 0 ∧ 1 ≤ c := by
  unfold trendSgn at h
  split_ifs at h with h₁ h₂ h₃
  · exact ⟨h₃, Nat.one_le_iff_ne_zero.mpr h₁⟩

theorem trendScore_neg_eq (a : ℚ) (c : Nat) : trendScore (-a) c = -trendScore a c := by
  unfold trendScore
  push_cast
  ring

/-- The computable strict comparison test agrees with the real
trending-score comparison. -/
theorem trendLtTest_spec (a : ℚ) (c : Nat) (b : ℚ) (d : Nat) :
    trendLtTest a c b d = true ↔ trendScore a c < trendScore b d := by
  rcases trendSgn_spec a c with ⟨hs₁, hv₁⟩ | ⟨hs₁, hv₁⟩ | ⟨hs₁, hv₁⟩ <;>
    rcases trendSgn_spec b d with ⟨hs₂, hv₂⟩ | ⟨hs₂, hv₂⟩ | ⟨hs₂, hv₂⟩
  · -- both positive: power comparison
    obtain ⟨hap, hc⟩ := trendSgn_one hs₁
    obtain ⟨hbp, _⟩ := trendSgn_one hs₂
    simp only [trendLtTest, hs₁, hs₂]
    rw [qmul_log_lt_iff hap hbp c d]
    norm_num
  · simp only [trendLtTest, hs₁, hs₂]
    norm_num
    linarith
  · simp only [trendLtTest, hs₁, hs₂]
    norm_num
    linarith
  · simp only [trendLtTest, hs₁, hs₂]
    norm_num
    linarith
  · simp only [trendLtTest, hs₁, hs₂]
    norm_num
    linarith
  · simp only [trendLtTest, hs₁, hs₂]
    norm_num
    linarith
  · simp only [trendLtTest, hs₁, hs₂]
    norm_num
    linarith
  · simp only [trendLtTest, hs₁, hs₂]
    norm_num
    linarith
  · -- both negative: flipped power comparison
    obtain ⟨han, hc⟩ := trendSgn_negOne hs₁
    obtain ⟨hbn, hd⟩ := trendSgn_negOne hs₂
    have hap : 0 < -a := by linarith
    have hbp : 0 < -b := by linarith
    simp only [trendLtTest, hs₁, hs₂]
    norm_num
    have : trendScore a c < trendScore b d ↔ trendScore (-b) d < trendScore (-a) c := by
      rw [trendScore_neg_eq, trendScore_neg_eq]
      constructor <;> intro h <;> linarith
    rw [this, qmul_log_lt_iff hbp hap d c]
    simp [Rat.neg_den]

/-- The computable equality test agrees with real trending-score
equality. -/
theorem trendEqTest_spec (a : ℚ) (c : Nat) (b : ℚ) (d : Nat) :
    trendEqTest a c b d = true ↔ trendScore a c = trendScore b d := by
  rcases trendSgn_spec a c with ⟨hs₁, hv₁⟩ | ⟨hs₁, hv₁⟩ | ⟨hs₁, hv₁⟩ <;>
    rcases trendSgn_spec b d with ⟨hs₂, hv₂⟩ | ⟨hs₂, hv₂⟩ | ⟨hs₂, hv₂⟩
  · obtain ⟨hap, hc⟩ := trendSgn_one hs₁
    obtain ⟨hbp, _⟩ := trendSgn_one hs₂
    simp only [trendEqTest, hs₁, hs₂]
    simpa using (qmul_log_eq_iff hap hbp c d).symm
  · simp only [trendEqTest, hs₁, hs₂]
    norm_num
    linarith
  · simp only [trendEqTest, hs₁, hs₂]
    norm_num
    linarith
  · simp only [trendEqTest, hs₁, hs₂]
    norm_num
    linarith
  · simp only [trendEqTest, hs₁, hs₂]
    norm_num
    rw [hv₁, hv₂]
  · simp only [trendEqTest, hs₁, hs₂]
    norm_num
    linarith
  · simp only [trendEqTest, hs₁, hs₂]
    norm_num
    linarith
  · simp only [trendEqTest, hs₁, hs₂]
    norm_num
    linarith
  · obtain ⟨han, hc⟩ := trendSgn_negOne hs₁
    obtain ⟨hbn, hd⟩ := trendSgn_negOne hs₂
    have hap : 0 < -a := by linarith
    have hbp : 0 < -b := by linarith
    simp only [trendEqTest, hs₁, hs₂]
    norm_num
    have : (trendScore a c = trendScore b d) ↔ trendScore (-b) d = trendScore (-a) c := by
      rw [trendScore_neg_eq, trendScore_neg_eq]
      constructor <;> intro h <;> linarith
    rw [this, qmul_log_eq_iff hbp hap d c]
    simp [Rat.neg_den]

/-- The comparator of the trending sort is exactly the real
`ORDER BY trending_score DESC, recent_avg_rating DESC` relation. -/
theorem trendBefore_iff (x y : ℚ × Nat) :
    trendBefore x y ↔
      (trendScore y.1 y.2 < trendScore x.1 x.2 ∨
        (trendScore x.1 x.2 = trendScore y.1 y.2 ∧ y.1 ≤ x.1)) := by
  unfold trendBefore
  rw [trendLtTest_spec, trendEqTest_spec]

theorem trendBefore_total (x y : ℚ × Nat) : trendBefore x y ∨ trendBefore y x := by
  rw [trendBefore_iff, trendBefore_iff]
  rcases lt_trichotomy (trendScore x.1 x.2) (trendScore y.1 y.2) with h | h | h
  · exact Or.inr (Or.inl h)
  · rcases le_total x.1 y.1 with h' | h'
    · exact Or.inr (Or.inr ⟨h.symm, h'⟩)
    · exact Or.inl (Or.inr ⟨h, h'⟩)
  · exact Or.inl (Or.inl h)

theorem trendBefore_trans (x y z : ℚ × Nat) :
    trendBefore x y → trendBefore y z → trendBefore x z := by
  rw [trendBefore_iff, trendBefore_iff, trendBefore_iff]
  rintro (h₁ | ⟨h₁, h₁'⟩) (h₂ | ⟨h₂, h₂'⟩)
  · exact Or.inl (lt_trans h₂ h₁)
  · exact Or.inl (h₂ ▸ h₁)
  · exact Or.inl (h₁ ▸ h₂)
  · exact Or.inr ⟨h₁.trans h₂, le_trans h₂' h₁'⟩

/-- C7: trending membership requires at least `min_reviews_in_period`
recent reviews and at least one recent review (zero-activity books are
excluded entirely, not zero-scored), and the result is ordered by
descending `trending_score = recent_avg_rating * log(recent_count + 1)`
(natural logarithm) with ties broken by descending recent average
rating. -/
theorem claim_C7 (s : Store) (now : Int) (limit : Nat) (days_back : Int) (m : Nat) :
    (∀ b ∈ get_trending_books s now limit days_back m,
        m ≤ recentCount s now days_back b.id ∧ 1 ≤ recentCount s now days_back b.id) ∧
    (∀ b ∈ s.books, recentCount s now days_back b.id = 0 →
        b ∉ get_trending_books s now limit days_back m) ∧
    (get_trending_books s now limit days_back m).Sorted (fun x y =>
      trendScore (recentAvgRating s now days_back y.id) (recentCount s now days_back y.id) <
        trendScore (recentAvgRating s now days_back x.id)
          (recentCount s now days_back x.id) ∨
      (trendScore (recentAvgRating s now days_back x.id) (recentCount s now days_back x.id) =
        trendScore (recentAvgRating s now days_back y.id)
          (recentCount s now days_back y.id) ∧
        recentAvgRating s now days_back y.id ≤ recentAvgRating s now days_back x.id)) := by
  have hmem : ∀ b ∈ get_trending_books s now limit days_back m,
      m ≤ recentCount s now days_back b.id ∧ 1 ≤ recentCount s now days_back b.id := by
    intro b hb
    have hb' := List.mem_of_mem_take hb
    rw [List.mem_insertionSort] at hb'
    rw [List.mem_filter] at hb'
    have hcond := hb'.2
    simp only [Bool.and_eq_true, decide_eq_true_eq] at hcond
    exact ⟨hcond.2, hcond.1⟩
  refine ⟨hmem, ?_, ?_⟩
  · intro b _ hzero hb
    have := (hmem b hb).2
    omega
  · unfold get_trending_books
    haveI : IsTotal Book (trendOrder s now days_back) :=
      ⟨fun x y => trendBefore_total _ _⟩
    haveI : IsTrans Book (trendOrder s now days_back) :=
      ⟨fun x y z => trendBefore_trans _ _ _⟩
    refine List.Pairwise.imp ?_
      (Sorted.take_of_sorted (List.sorted_insertionSort _ _) _)
    intro x y h
    exact (trendBefore_iff _ _).mp h

end BRS
